/-
  Verification of the option-economics calculation engine and the
  order-status polling state machine of the AllYouNeedIsWheel dashboard.

  The JavaScript sources are shallowly embedded:
  * JS numbers are modelled as exact rationals (ℚ); all arithmetic in the
    verified fragments is +, -, *, /, Math.floor and comparisons, so the
    idealised semantics coincides with the float semantics on the concrete
    inputs used in the theorems below.
  * Nullable fields (`null` / `undefined` / absent) are modelled as `Option`;
    JS truthiness of a nullable number (`if (x)`) is `truthy` below
    (`null`, `undefined` and `0` are all falsy).
  * The module-level mutable state (`tickersData`, `pendingOrdersData`,
    `autoRefreshTimer`) is passed explicitly; the async operations become
    pure state-transition functions applied to the parsed response of the
    backend call they await.
-/
import Mathlib

/-- JS truthiness of a nullable number: `null`/`undefined`/`0` are falsy. -/
def truthy : Option ℚ → Bool
  | none => false
  | some v => v ≠ 0

/-- JS `a || b` for numbers: `a` when truthy, else `b` (`0` falls through). -/
def jsOr (a b : ℚ) : ℚ := if a = 0 then b else a

/-- The two option rights appearing in the dashboard. -/
inductive OptionSide
  | CALL
  | PUT
deriving DecidableEq, Repr

/-- `calculateOTMPercentage(strikePrice, currentPrice)`
(options-table.js 179-184): returns `0` when either argument is falsy,
otherwise `(strikePrice - currentPrice) / currentPrice * 100`. -/
def calculateOTMPercentage (strikePrice currentPrice : ℚ) : ℚ :=
  if strikePrice = 0 ∨ currentPrice = 0 then 0
  else (strikePrice - currentPrice) / currentPrice * 100

/-- The OTM percentage as the dashboard computes it per side
(options-table.js 469-479): for a call the row passes
`(callOption.strike, stockPrice)`, for a put it passes the swapped pair
`(stockPrice, putOption.strike)`. -/
def otmPercentage (strike referencePrice : ℚ) : OptionSide → ℚ
  | .CALL => calculateOTMPercentage strike referencePrice
  | .PUT => calculateOTMPercentage referencePrice strike

/-- A single option quote from the backend chain (`calls[]` / `puts[]`
entries).  `expiration` is a calendar date measured in whole days (the JS
code compares `new Date(...)` values, whose ordering and differences agree
with day numbers for the date-only strings used). -/
structure OptionQuote where
  strike : ℚ
  ask : Option ℚ
  bid : Option ℚ
  delta : Option ℚ
  expiration : ℤ
deriving DecidableEq, Repr

/-- The per-ticker payload `data[ticker]` of `/api/options/otm`:
position size, stock price and the call/put quote arrays (older payloads
use singular `call` / `put`).  `position` and `stock_price` are read with
`|| 0`, so an absent field is the same as `0`. -/
structure OptionData where
  position : ℚ
  stock_price : ℚ
  calls : List OptionQuote
  call : Option OptionQuote
  puts : List OptionQuote
  put : Option OptionQuote
deriving DecidableEq, Repr

/-- Quote selection used everywhere in options-table.js
(e.g. lines 272-277): `calls[0]` when the array is non-empty, else the
legacy `call` field. -/
def chosenCall (od : OptionData) : Option OptionQuote :=
  match od.calls with
  | c :: _ => some c
  | [] => od.call

/-- Put-side analogue of `chosenCall` (options-table.js 286-291). -/
def chosenPut (od : OptionData) : Option OptionQuote :=
  match od.puts with
  | p :: _ => some p
  | [] => od.put

/-- The slice of the account summary the engine reads. -/
structure PortfolioSummary where
  cash_balance : ℚ
  account_value : ℚ
deriving DecidableEq, Repr

/-- One entry of the module-level `tickersData` map: `data` is `null`
until the first successful fetch (`tickerData.data.data` is collapsed into
one `Option`, since the code only ever tests the whole chain
`tickerData && tickerData.data && tickerData.data.data`), and
`Object.values` of the fetched per-ticker map is kept as a list. -/
structure TickerData where
  data : Option (List OptionData)
  putQuantity : ℚ
deriving DecidableEq, Repr

/-- Accumulator of `calculateEarningsSummary`'s four running sums. -/
structure EarnAcc where
  call : ℚ
  put : ℚ
  pv : ℚ
  cost : ℚ
deriving DecidableEq, Repr

/-- Componentwise sum of accumulators (for the additivity analysis). -/
def EarnAcc.add (a b : EarnAcc) : EarnAcc :=
  ⟨a.call + b.call, a.put + b.put, a.pv + b.pv, a.cost + b.cost⟩

/-- The body of the inner `forEach` of `calculateEarningsSummary`
(options-table.js 255-305): positions under 100 shares are skipped
entirely; otherwise the stock value, the call premium (guarded by the
truthiness of the call ask), and the put premium and exercise cost
(guarded by the truthiness of the put ask) are accumulated.  The put
quantity is `tickerData.putQuantity || Math.floor(sharesOwned / 100)`. -/
def stepOptionData (putQuantity : ℚ) (acc : EarnAcc) (od : OptionData) : EarnAcc :=
  if od.position < 100 then acc
  else
    let maxCallContracts : ℤ := ⌊od.position / 100⌋
    let acc1 : EarnAcc := { acc with pv := acc.pv + od.position * od.stock_price }
    let acc2 : EarnAcc :=
      match chosenCall od with
      | some c =>
          if truthy c.ask then
            { acc1 with call := acc1.call + c.ask.getD 0 * 100 * maxCallContracts }
          else acc1
      | none => acc1
    match chosenPut od with
    | some p =>
        if truthy p.ask then
          let customPutQuantity : ℚ := jsOr putQuantity ((maxCallContracts : ℚ))
          { acc2 with
              put := acc2.put + p.ask.getD 0 * 100 * customPutQuantity,
              cost := acc2.cost + p.strike * customPutQuantity * 100 }
        else acc2
    | none => acc2

/-- The outer `forEach` of `calculateEarningsSummary` (options-table.js
251-306): tickers whose `data` chain is null are skipped. -/
def stepTicker (acc : EarnAcc) (td : TickerData) : EarnAcc :=
  match td.data with
  | none => acc
  | some ods => ods.foldl (stepOptionData td.putQuantity) acc

/-- The summary object produced by `calculateEarningsSummary`. -/
structure Summary where
  totalWeeklyCallPremium : ℚ
  totalWeeklyPutPremium : ℚ
  totalWeeklyPremium : ℚ
  portfolioValue : ℚ
  projectedAnnualEarnings : ℚ
  projectedAnnualReturn : ℚ
  totalPutExerciseCost : ℚ
  cashBalance : ℚ
deriving DecidableEq, Repr

/-- `calculateEarningsSummary(tickersData)` (options-table.js 238-320).
The module-level `portfolioSummary` is passed explicitly; the summary's
`cashBalance` is `portfolioSummary ? portfolioSummary.cash_balance || 0 : 0`. -/
def calculateEarningsSummary (portfolioSummary : Option PortfolioSummary)
    (tickersData : List TickerData) : Summary :=
  let acc := tickersData.foldl stepTicker ⟨0, 0, 0, 0⟩
  let totalWeeklyPremium := acc.call + acc.put
  let projectedAnnualEarnings := totalWeeklyPremium * 52
  { totalWeeklyCallPremium := acc.call
    totalWeeklyPutPremium := acc.put
    totalWeeklyPremium := totalWeeklyPremium
    portfolioValue := acc.pv
    projectedAnnualEarnings := projectedAnnualEarnings
    projectedAnnualReturn :=
      if 0 < acc.pv then projectedAnnualEarnings / acc.pv * 100 else 0
    totalPutExerciseCost := acc.cost
    cashBalance :=
      match portfolioSummary with
      | some ps => ps.cash_balance
      | none => 0 }

/-- Per-row covered-call premium (options-table.js 499-504):
`(callOption.ask || 0) * 100 * Math.floor(sharesOwned / 100)`. -/
def rowCallPremium (c : OptionQuote) (sharesOwned : ℚ) : ℚ :=
  let maxCallContracts : ℤ := ⌊sharesOwned / 100⌋
  let callAskPrice : ℚ := c.ask.getD 0
  let callPremiumPerContract := callAskPrice * 100
  callPremiumPerContract * (maxCallContracts : ℚ)

/-- The call-premium table cell (options-table.js 492-510): shown only when
calls are enabled for the ticker, a call option is present and its ask is
truthy; otherwise the `'N/A'` fallback (`none`). -/
def rowCallPremiumCell (callsDisabled : Bool) (callOption : Option OptionQuote)
    (sharesOwned : ℚ) : Option ℚ :=
  match callOption with
  | some c =>
      if callsDisabled = false ∧ truthy c.ask then some (rowCallPremium c sharesOwned)
      else none
  | none => none

/-- Resolution of the displayed put quantity (options-table.js 522-535):
`tickerData.putQuantity || 0`, then, when a put option is present and the
quantity is still `0`, default to `1` for custom tickers and to
`Math.floor(sharesOwned / 100)` for portfolio tickers. -/
def resolvedPutQuantity (isCustom : Bool) (putOption : Option OptionQuote)
    (putQuantity sharesOwned : ℚ) : ℚ :=
  if putOption.isSome ∧ putQuantity = 0 then
    if isCustom then 1 else ((⌊sharesOwned / 100⌋ : ℤ) : ℚ)
  else putQuantity

/-- Per-row cash-secured-put premium (options-table.js 517-538):
`(putOption && putOption.ask ? putOption.ask : 0) * 100 * putQuantity`. -/
def rowPutPremium (putOption : Option OptionQuote) (putQuantity : ℚ) : ℚ :=
  let putAskPrice : ℚ :=
    match putOption with
    | some p => if truthy p.ask then p.ask.getD 0 else 0
    | none => 0
  let putPremiumPerContract := putAskPrice * 100
  putPremiumPerContract * putQuantity

/-- The put-premium table cell (options-table.js 553-556): shown only when
a put option is present with a truthy ask, else the `'N/A'` fallback. -/
def rowPutPremiumCell (putOption : Option OptionQuote) (putQuantity : ℚ) : Option ℚ :=
  match putOption with
  | some p => if truthy p.ask then some (rowPutPremium (some p) putQuantity) else none
  | none => none

/-- The row's put exercise cost (options-table.js 540-545):
`putOption.strike * putQuantity * 100` when a put is present with positive
quantity, otherwise the initial `0`. -/
def rowExerciseCost (putOption : Option OptionQuote) (putQuantity : ℚ) : ℚ :=
  match putOption with
  | some p => if 0 < putQuantity then p.strike * putQuantity * 100 else 0
  | none => 0

/-- The portfolio-impact computation (options-table.js 542-551): the
variable `portfolioImpact` is initialised to `0` and overwritten with
`exerciseCost / account_value * 100` only when
`portfolioSummary && portfolioSummary.account_value > 0`; a zero (or
missing) account value therefore leaves the computed value at `0`. -/
def portfolioImpact (exerciseCost accountValue : ℚ) : ℚ :=
  if 0 < accountValue then exerciseCost / accountValue * 100 else 0

/-- The portfolio-impact table cell (options-table.js 574-576): the value is
rendered only when it is strictly positive, otherwise the `'N/A'` fallback. -/
def portfolioImpactDisplay (impact : ℚ) : Option ℚ :=
  if 0 < impact then some impact else none

/-- The data interpolated into the `explanation` string of
`calculateRecommendedPutQuantity`: either the fixed default text or the
cash/diversification message. -/
inductive PutQtyExplanation
  | default
  | basedOnCash (cashBalance : ℚ) (totalStocks : ℕ)
deriving DecidableEq, Repr

/-- Return value of `calculateRecommendedPutQuantity`. -/
structure PutQtyRecommendation where
  quantity : ℤ
  explanation : PutQtyExplanation
deriving DecidableEq, Repr

/-- `calculateRecommendedPutQuantity(stockPrice, putStrike, ticker)`
(options-table.js 193-231).  The module-level `portfolioSummary` and
`Object.keys(tickersData).length` are passed explicitly.  The default
recommendation is returned when the summary is missing or either price is
falsy; otherwise
`max(1, min(floor((2.0 * cashBalance / totalStocks) / (putStrike * 100)), 10))`
with `cashBalance = cash_balance || 0` and `totalStocks = numTickers || 1`. -/
def calculateRecommendedPutQuantity (portfolioSummary : Option PortfolioSummary)
    (numTickers : ℕ) (stockPrice putStrike : ℚ) : PutQtyRecommendation :=
  match portfolioSummary with
  | none => ⟨1, .default⟩
  | some ps =>
      if stockPrice = 0 ∨ putStrike = 0 then ⟨1, .default⟩
      else
        let cashBalance := ps.cash_balance
        let totalStocks : ℕ := if numTickers = 0 then 1 else numTickers
        let maxAllocationPerStock : ℚ := 2 * cashBalance / (totalStocks : ℚ)
        let potentialContracts : ℤ := ⌊maxAllocationPerStock / (putStrike * 100)⌋
        let maxContracts : ℤ := min potentialContracts 10
        ⟨max 1 maxContracts, .basedOnCash cashBalance totalStocks⟩

/-- Distance of a candidate's expiration from one week after the current
expiration (`oneWeekLater` in `selectOptionToRoll`, rollover module
406-409). -/
def expiryDistance (currentExpiry : ℤ) (o : OptionQuote) : ℤ :=
  |o.expiration - (currentExpiry + 7)|

/-- The comparator of the rollover sort (rollover module 415-425): the JS
comparator returns `diffA - diffB`, i.e. ascending by distance, and
`Array.prototype.sort` is stable. -/
def rolloverLE (currentExpiry : ℤ) (a b : OptionQuote) : Prop :=
  expiryDistance currentExpiry a ≤ expiryDistance currentExpiry b

instance (currentExpiry : ℤ) : DecidableRel (rolloverLE currentExpiry) :=
  fun a b =>
    inferInstanceAs (Decidable (expiryDistance currentExpiry a ≤ expiryDistance currentExpiry b))

/-- The rollover-suggestion pipeline of `selectOptionToRoll` (rollover
module 406-428): keep the available options expiring strictly after the
current expiration, sort ascending by distance from one week later (stable
sort, modelled by `List.insertionSort` with a `≤` comparator), and take the
top 3. -/
def selectRolloverSuggestions (currentExpiry : ℤ)
    (availableOptions : List OptionQuote) : List OptionQuote :=
  (((availableOptions.filter (fun o => decide (currentExpiry < o.expiration))).insertionSort
      (rolloverLE currentExpiry)).take 3)

/-- Order status values of the tracker (orders.js). -/
inductive OrderStatus
  | pending
  | processing
  | executed
  | canceling
  | canceled
  | rejected
deriving DecidableEq, Repr, BEq

/-- A terminal status: `executed`, `canceled` or `rejected`. -/
def OrderStatus.isTerminal : OrderStatus → Bool
  | .executed => true
  | .canceled => true
  | .rejected => true
  | _ => false

/-- A tracked order (the fields of `pendingOrdersData` entries that the
tracker reads or writes; the purely displayed fields are omitted). -/
structure Order where
  id : ℕ
  status : OrderStatus
  executed : Bool
  ib_order_id : Option String
  ib_status : Option String
  filled : Option ℚ
  remaining : Option ℚ
  avg_fill_price : Option ℚ
deriving DecidableEq, Repr

/-- A default order, used only as the out-of-range value of `List.getD`. -/
def dummyOrder : Order := ⟨0, .pending, false, none, none, none, none, none⟩

/-- `result.execution_details` of `POST /api/options/execute/{id}`. -/
structure ExecutionDetails where
  ib_order_id : String
  ib_status : String
  filled : Option ℚ
  remaining : Option ℚ
  avg_fill_price : Option ℚ
deriving DecidableEq, Repr

/-- Successful response of the execute endpoint. -/
structure ExecResult where
  ib_order_id : Option String
  execution_details : Option ExecutionDetails
deriving DecidableEq, Repr

/-- Successful response of the cancel endpoint. -/
structure CancelResult where
  ib_status : Option String
deriving DecidableEq, Repr

/-- One entry of `updated_orders` in the `POST /api/options/check-orders`
response.  A field wrapped in `Option` here models a JSON key that may be
absent from the payload: the merge `{...old, ...updatedOrder}` overwrites a
local field exactly when the key is present. -/
structure OrderUpdate where
  id : ℕ
  status : Option OrderStatus
  ib_status : Option String
  avg_fill_price : Option ℚ
deriving DecidableEq, Repr

/-- Response of the check-orders endpoint. -/
structure CheckResult where
  success : Bool
  updated_orders : List OrderUpdate
deriving DecidableEq, Repr

/-- The order-tracker state: the `pendingOrdersData` array and whether the
`autoRefreshTimer` interval is running. -/
structure TrackerState where
  orders : List Order
  timerOn : Bool
deriving DecidableEq, Repr

/-- Update the first element satisfying `p` (the JS pattern
`findIndex` + in-place mutation used by every operation of orders.js). -/
def updateFirst (p : α → Bool) (f : α → α) : List α → List α
  | [] => []
  | x :: xs => if p x then f x :: xs else x :: updateFirst p f xs

/-- The spread merge `{...pendingOrdersData[orderIndex], ...updatedOrder}`
of `checkOrdersStatus` (orders.js 479-482): fields present in the update
overwrite, absent fields are left untouched. -/
def mergeOrder (o : Order) (u : OrderUpdate) : Order :=
  { o with
      status := u.status.getD o.status
      ib_status :=
        match u.ib_status with
        | some s => some s
        | none => o.ib_status
      avg_fill_price :=
        match u.avg_fill_price with
        | some v => some v
        | none => o.avg_fill_price }

/-- The `updated_orders.forEach` merge loop of `checkOrdersStatus`
(orders.js 475-484): each update is merged into the first local order with
a matching id. -/
def applyUpdates (orders : List Order) (updates : List OrderUpdate) : List Order :=
  updates.foldl (fun os u => updateFirst (fun o => o.id == u.id) (fun o => mergeOrder o u) os) orders

/-- `['processing', 'canceling'].includes(order.status)` over the tracked
orders (orders.js 467-468 and 490-491). -/
def hasActiveOrders (orders : List Order) : Bool :=
  orders.any (fun o => o.status == .processing || o.status == .canceling)

/-- The state mutation of `executeOrderById` after `executeOrder(orderId)`
resolves (orders.js 371-404): the first order with the given id is set to
`processing` with the IB details from the response, and
`startAutoRefresh()` turns the polling timer on (it is started whether or
not a matching order was found, and regardless of the order's previous
status). -/
def executeOrderSucceed (s : TrackerState) (orderId : ℕ) (result : ExecResult) :
    TrackerState :=
  let applyExec : Order → Order := fun o =>
    let base := { o with status := OrderStatus.processing, executed := true }
    match result.execution_details with
    | some d =>
        { base with
            ib_order_id := some d.ib_order_id
            ib_status := some d.ib_status
            filled := d.filled
            remaining := d.remaining
            avg_fill_price := d.avg_fill_price }
    | none =>
        { base with
            ib_order_id := some (result.ib_order_id.getD "Unknown")
            ib_status := some "Submitted" }
  ⟨updateFirst (fun o => o.id == orderId) applyExec s.orders, true⟩

/-- The state mutation of `cancelOrderById` after `cancelOrder(orderId)`
resolves (orders.js 415-443): the first order with the given id becomes
`canceling` when the broker answered `PendingCancel` and `canceled`
otherwise, and the polling timer is turned on. -/
def cancelOrderSucceed (s : TrackerState) (orderId : ℕ) (result : CancelResult) :
    TrackerState :=
  let applyCancel : Order → Order := fun o =>
    let o1 :=
      { o with
          status :=
            if result.ib_status = some "PendingCancel" then OrderStatus.canceling
            else OrderStatus.canceled }
    match result.ib_status with
    | some s' => { o1 with ib_status := some s' }
    | none => o1
  ⟨updateFirst (fun o => o.id == orderId) applyCancel s.orders, true⟩

/-- One tick of `checkOrdersStatus` (orders.js 464-505).  `resp` is the
parsed response of `POST /api/options/check-orders`, `none` when the fetch
threw (the error is swallowed and the state is left unchanged).  When no
tracked order is `processing`/`canceling` the timer is stopped without
calling the backend; otherwise, when the response carries updates they are
merged and the timer is stopped if no active order remains. -/
def checkOrdersStatus (s : TrackerState) (resp : Option CheckResult) : TrackerState :=
  if hasActiveOrders s.orders then
    match resp with
    | some result =>
        if result.success ∧ result.updated_orders ≠ [] then
          let orders := applyUpdates s.orders result.updated_orders
          if hasActiveOrders orders then ⟨orders, s.timerOn⟩
          else ⟨orders, false⟩
        else s
    | none => s
  else ⟨s.orders, false⟩

/-- C1 (counterexample): the claimed antisymmetry instance fails on the
code: `otmPercentage(110, 100, CALL)` is `10` but `otmPercentage(90, 100,
PUT)` is `(100 - 90) / 90 * 100 = 100/9`, because the put-side call site
passes the put's strike as the *denominator* argument of
`calculateOTMPercentage`. -/
theorem otmPercentage_antisymmetry_fails :
    otmPercentage 110 100 OptionSide.CALL ≠ otmPercentage 90 100 OptionSide.PUT := by
  norm_num [otmPercentage, calculateOTMPercentage]

/-- C1 (amended): for nonzero strike `s` and reference price `p` the OTM
percentage is `(s - p) / p * 100` on the CALL side but `(p - s) / s * 100`
on the PUT side (the denominator is the put's strike, not the reference
price); consequently the two sides agree for displacements that are equal
relative to their own denominators, e.g.
`otmPercentage(110, 100, CALL) = otmPercentage(90, 99, PUT)` (both `10`). -/
theorem otmPercentage_formulas (s p : ℚ) (hs : s ≠ 0) (hp : p ≠ 0) :
    otmPercentage s p OptionSide.CALL = (s - p) / p * 100 ∧
    otmPercentage s p OptionSide.PUT = (p - s) / s * 100 ∧
    otmPercentage 110 100 OptionSide.CALL = otmPercentage 90 99 OptionSide.PUT := by
  refine ⟨?_, ?_, by norm_num [otmPercentage, calculateOTMPercentage]⟩
  · simp [otmPercentage, calculateOTMPercentage, hs, hp]
  · simp [otmPercentage, calculateOTMPercentage, hs, hp]

/-- Witness for `otmPercentage_formulas` at `(110, 100)` and `(90, 100)`. -/
theorem otmPercentage_formulas_witness :
    otmPercentage 110 100 OptionSide.CALL = (110 - 100) / 100 * 100 ∧
    otmPercentage 90 100 OptionSide.PUT = (100 - 90) / 90 * 100 :=
  ⟨(otmPercentage_formulas 110 100 (by norm_num) (by norm_num)).1,
    (otmPercentage_formulas 90 100 (by norm_num) (by norm_num)).2.1⟩

/-- A quoted put on a ticker holding fewer than 100 shares. -/
def under100PutQuote : OptionQuote := ⟨95, some 2, none, none, 19902⟩

/-- A 50-share position with a quoted put. -/
def under100OptionData : OptionData := ⟨50, 40, [], none, [under100PutQuote], none⟩

/-- The working set of the 50-share ticker, put quantity 1. -/
def under100Ticker : TickerData := ⟨some [under100OptionData], 1⟩

/-- C2 (counterexample): a working set holding a ticker with 50 shares and
a quoted put (ask 2, quantity 1) yields `totalWeeklyPutPremium = 0` — the
put premium `2 * 100 * 1 = 200` is *not* included, because
`calculateEarningsSummary` skips every position under 100 shares before
either side is processed. -/
theorem put_premium_excluded_under_100_shares :
    (calculateEarningsSummary none [under100Ticker]).totalWeeklyPutPremium = 0 ∧
    (calculateEarningsSummary none [under100Ticker]).totalWeeklyPutPremium ≠ 2 * 100 * 1 := by
  constructor <;>
    norm_num [calculateEarningsSummary, stepTicker, stepOptionData, under100Ticker,
      under100OptionData]

/-- C2 (amended): the ≥100-share eligibility filter of
`calculateEarningsSummary` applies to *both* sides: a position with fewer
than 100 shares contributes nothing at all — no call premium, no put
premium, no put exercise cost and no stock value. -/
theorem earnings_skips_under_100_shares (putQuantity : ℚ) (acc : EarnAcc)
    (od : OptionData) (h : od.position < 100) :
    stepOptionData putQuantity acc od = acc := by
  simp [stepOptionData, h]

/-- Witness for `earnings_skips_under_100_shares` on the 50-share position. -/
theorem earnings_skips_under_100_shares_witness :
    stepOptionData 1 ⟨0, 0, 0, 0⟩ under100OptionData = ⟨0, 0, 0, 0⟩ :=
  earnings_skips_under_100_shares 1 ⟨0, 0, 0, 0⟩ under100OptionData
    (by norm_num [under100OptionData])

/-- C4 (counterexample): with a zero account value the code's computed
`portfolioImpact` is `0`, not null — the variable is initialised to `0` and
the guarded division is simply skipped (`'N/A'` appears only in the display
layer). -/
theorem portfolioImpact_zero_account_not_null :
    portfolioImpact 9500 0 = 0 := by
  simp [portfolioImpact]

/-- C4 (amended): `portfolioImpact` equals
`exerciseCost / accountValue * 100` when the account value is positive;
when the account value is zero the *computed* value is `0` and the
`'N/A'` fallback (`none`) appears only in the rendered cell, which shows
the value exactly when it is strictly positive. -/
theorem portfolioImpact_spec (exerciseCost accountValue : ℚ) :
    (0 < accountValue →
      portfolioImpact exerciseCost accountValue = exerciseCost / accountValue * 100) ∧
    (accountValue = 0 →
      portfolioImpact exerciseCost accountValue = 0 ∧
      portfolioImpactDisplay (portfolioImpact exerciseCost accountValue) = none) := by
  constructor
  · intro h
    simp [portfolioImpact, h]
  · intro h
    subst h
    simp [portfolioImpact, portfolioImpactDisplay]

/-- Witness for `portfolioImpact_spec` at account values `40000` and `0`. -/
theorem portfolioImpact_spec_witness :
    portfolioImpact 9500 40000 = 9500 / 40000 * 100 ∧
    portfolioImpact 9500 0 = 0 ∧
    portfolioImpactDisplay (portfolioImpact 9500 0) = none :=
  ⟨(portfolioImpact_spec 9500 40000).1 (by norm_num),
    ((portfolioImpact_spec 9500 0).2 rfl).1,
    ((portfolioImpact_spec 9500 0).2 rfl).2⟩

/-- C5 (counterexample): with the portfolio summary present but a zero
cash balance (and nonzero prices), `calculateRecommendedPutQuantity`
returns quantity 1 through the `max(1, ·)` floor — with the computed
cash/diversification explanation, *not* the default rationale (the default
is returned only when the summary itself or one of the prices is falsy). -/
theorem recommendedPutQuantity_zero_cash_not_default :
    calculateRecommendedPutQuantity (some ⟨0, 10000⟩) 1 50 95 =
      ⟨1, .basedOnCash 0 1⟩ ∧
    (calculateRecommendedPutQuantity (some ⟨0, 10000⟩) 1 50 95).explanation ≠
      PutQtyExplanation.default := by
  refine ⟨by norm_num [calculateRecommendedPutQuantity], ?_⟩
  norm_num [calculateRecommendedPutQuantity]
  intro h
  exact PutQtyExplanation.noConfusion h

/-- C5 (amended): with the portfolio summary present and nonzero prices
the recommendation is
`max(1, min(floor((2 * cashBalance / tickerCount) / (putStrike * 100)), 10))`
with the cash-based rationale; the quantity always lies in `[1, 10]`; the
default rationale (with quantity 1) is returned exactly when the summary is
missing or `stockPrice` or `putStrike` is zero — a zero `cashBalance` alone
yields quantity 1 but keeps the computed rationale. -/
theorem recommendedPutQuantity_spec (ps : PortfolioSummary) (numTickers : ℕ)
    (stockPrice putStrike : ℚ) (hs : stockPrice ≠ 0) (hk : putStrike ≠ 0) :
    calculateRecommendedPutQuantity (some ps) numTickers stockPrice putStrike =
      ⟨max 1 (min ⌊2 * ps.cash_balance / ((if numTickers = 0 then 1 else numTickers : ℕ) : ℚ) /
            (putStrike * 100)⌋ 10),
        .basedOnCash ps.cash_balance (if numTickers = 0 then 1 else numTickers)⟩ ∧
    (∀ (ps' : Option PortfolioSummary) (t : ℕ) (s k : ℚ),
      1 ≤ (calculateRecommendedPutQuantity ps' t s k).quantity ∧
      (calculateRecommendedPutQuantity ps' t s k).quantity ≤ 10) ∧
    calculateRecommendedPutQuantity none numTickers stockPrice putStrike = ⟨1, .default⟩ ∧
    (∀ s k : ℚ, s = 0 ∨ k = 0 →
      calculateRecommendedPutQuantity (some ps) numTickers s k = ⟨1, .default⟩) := by
  refine ⟨?_, ?_, rfl, ?_⟩
  · simp [calculateRecommendedPutQuantity, hs, hk]
  · intro ps' t s k
    match ps' with
    | none => exact ⟨le_refl 1, by show (1 : ℤ) ≤ 10; norm_num⟩
    | some ps'' =>
      simp only [calculateRecommendedPutQuantity]
      split
      · exact ⟨le_refl 1, by show (1 : ℤ) ≤ 10; norm_num⟩
      · refine ⟨le_max_left 1 _, max_le (by norm_num) (min_le_right _ 10)⟩
  · intro s k h
    simp [calculateRecommendedPutQuantity, h]

/-- Witness for `recommendedPutQuantity_spec`: cash 10000, one ticker,
stock 50, put strike 95 gives `floor(20000 / 9500) = 2` contracts. -/
theorem recommendedPutQuantity_spec_witness :
    calculateRecommendedPutQuantity (some ⟨10000, 40000⟩) 1 50 95 =
      ⟨2, .basedOnCash 10000 1⟩ := by
  have h := (recommendedPutQuantity_spec ⟨10000, 40000⟩ 1 50 95 (by norm_num)
    (by norm_num)).1
  rw [h]
  norm_num

/-- The XYZ covered-call quote of the spec scenario: strike 105, ask 2. -/
def xyzCallQuote : OptionQuote := ⟨105, some 2, none, none, 19902⟩

/-- The XYZ position of the spec scenario: 250 shares at 100. -/
def xyzOptionData : OptionData := ⟨250, 100, [xyzCallQuote], none, [], none⟩

/-- The XYZ working set. -/
def xyzTicker : TickerData := ⟨some [xyzOptionData], 0⟩

/-- C9 (confirmed): the per-row covered-call premium is
`ask * 100 * floor(sharesOwned / 100)`, and in the XYZ scenario (250
shares, ask 2.00) the eligible contract count is 2 and the total premium is
400 — both in the row computation and in the aggregated
`totalWeeklyCallPremium`. -/
theorem covered_call_premium_formula :
    (∀ (c : OptionQuote) (sharesOwned : ℚ),
      rowCallPremium c sharesOwned = c.ask.getD 0 * 100 * ((⌊sharesOwned / 100⌋ : ℤ) : ℚ)) ∧
    (⌊(250 : ℚ) / 100⌋ : ℤ) = 2 ∧
    rowCallPremium xyzCallQuote 250 = 400 ∧
    (calculateEarningsSummary none [xyzTicker]).totalWeeklyCallPremium = 400 := by
  refine ⟨fun c sharesOwned => by simp [rowCallPremium], by norm_num, ?_, ?_⟩
  · norm_num [rowCallPremium, xyzCallQuote]
  · norm_num [calculateEarningsSummary, stepTicker, stepOptionData, xyzTicker,
      xyzOptionData, xyzCallQuote, chosenCall, chosenPut, truthy]

/-- `stepOptionData` adds a contribution independent of the accumulator:
shifting the accumulator by `a` shifts the result by `a`. -/
theorem stepOptionData_add (q : ℚ) (a b : EarnAcc) (od : OptionData) :
    stepOptionData q (a.add b) od = a.add (stepOptionData q b od) := by
  obtain ⟨ac, ap, av, ax⟩ := a
  obtain ⟨bc, bp, bv, bx⟩ := b
  by_cases h : od.position < 100
  · simp [stepOptionData, h]
  · simp only [stepOptionData, h, if_false, EarnAcc.add]
    cases chosenCall od <;> cases chosenPut od <;> dsimp only <;> (try split_ifs) <;>
      (try simp) <;> (try and_intros) <;> (try ring)

/-- Accumulator shift through the inner fold of `calculateEarningsSummary`. -/
theorem foldl_stepOptionData_add (q : ℚ) (a : EarnAcc) :
    ∀ (ods : List OptionData) (b : EarnAcc),
      ods.foldl (stepOptionData q) (a.add b) = a.add (ods.foldl (stepOptionData q) b)
  | [], _ => rfl
  | od :: ods, b => by
      simp only [List.foldl_cons, stepOptionData_add]
      exact foldl_stepOptionData_add q a ods _

/-- Accumulator shift through `stepTicker`. -/
theorem stepTicker_add (a b : EarnAcc) (td : TickerData) :
    stepTicker (a.add b) td = a.add (stepTicker b td) := by
  cases h : td.data with
  | none => simp [stepTicker, h]
  | some ods => simp [stepTicker, h, foldl_stepOptionData_add]

/-- Accumulator shift through the outer fold. -/
theorem foldl_stepTicker_add (a : EarnAcc) :
    ∀ (tds : List TickerData) (b : EarnAcc),
      tds.foldl stepTicker (a.add b) = a.add (tds.foldl stepTicker b)
  | [], _ => rfl
  | td :: tds, b => by
      simp only [List.foldl_cons, stepTicker_add]
      exact foldl_stepTicker_add a tds _

/-- The zero accumulator is neutral for `EarnAcc.add`. -/
theorem EarnAcc.add_zero (a : EarnAcc) : a.add ⟨0, 0, 0, 0⟩ = a := by
  obtain ⟨c, p, v, x⟩ := a
  simp [EarnAcc.add]

/-- The accumulated sums split over a concatenation of working sets. -/
theorem foldl_stepTicker_append (A B : List TickerData) :
    (A ++ B).foldl stepTicker ⟨0, 0, 0, 0⟩ =
      (A.foldl stepTicker ⟨0, 0, 0, 0⟩).add (B.foldl stepTicker ⟨0, 0, 0, 0⟩) := by
  rw [List.foldl_append]
  calc B.foldl stepTicker (A.foldl stepTicker ⟨0, 0, 0, 0⟩)
      = B.foldl stepTicker ((A.foldl stepTicker ⟨0, 0, 0, 0⟩).add ⟨0, 0, 0, 0⟩) := by
        rw [EarnAcc.add_zero]
    _ = (A.foldl stepTicker ⟨0, 0, 0, 0⟩).add (B.foldl stepTicker ⟨0, 0, 0, 0⟩) :=
        foldl_stepTicker_add _ B _

/-- C3 (amended): the six accumulated/derived *sum* fields of
`calculateEarningsSummary` are additive over a split of the working sets —
but not the whole record: `projectedAnnualReturn` is a ratio and
`cashBalance` is a constant of the account, and neither adds (see the
counterexample). -/
theorem earningsSummary_sum_fields_additive (ps : Option PortfolioSummary)
    (A B : List TickerData) :
    (calculateEarningsSummary ps (A ++ B)).totalWeeklyCallPremium =
        (calculateEarningsSummary ps A).totalWeeklyCallPremium +
          (calculateEarningsSummary ps B).totalWeeklyCallPremium ∧
    (calculateEarningsSummary ps (A ++ B)).totalWeeklyPutPremium =
        (calculateEarningsSummary ps A).totalWeeklyPutPremium +
          (calculateEarningsSummary ps B).totalWeeklyPutPremium ∧
    (calculateEarningsSummary ps (A ++ B)).totalWeeklyPremium =
        (calculateEarningsSummary ps A).totalWeeklyPremium +
          (calculateEarningsSummary ps B).totalWeeklyPremium ∧
    (calculateEarningsSummary ps (A ++ B)).portfolioValue =
        (calculateEarningsSummary ps A).portfolioValue +
          (calculateEarningsSummary ps B).portfolioValue ∧
    (calculateEarningsSummary ps (A ++ B)).projectedAnnualEarnings =
        (calculateEarningsSummary ps A).projectedAnnualEarnings +
          (calculateEarningsSummary ps B).projectedAnnualEarnings ∧
    (calculateEarningsSummary ps (A ++ B)).totalPutExerciseCost =
        (calculateEarningsSummary ps A).totalPutExerciseCost +
          (calculateEarningsSummary ps B).totalPutExerciseCost := by
  simp only [calculateEarningsSummary, foldl_stepTicker_append, EarnAcc.add]
  and_intros <;> first | trivial | ring

/-- Working set A of the additivity counterexample: 200 shares at 100 with
a call quoted at ask 2. -/
def additivityTickerA : TickerData :=
  ⟨some [⟨200, 100, [⟨105, some 2, none, none, 19902⟩], none, [], none⟩], 0⟩

/-- Working set B of the additivity counterexample: 100 shares at 100 with
a call quoted at ask 1. -/
def additivityTickerB : TickerData :=
  ⟨some [⟨105, 100, [⟨110, some 1, none, none, 19902⟩], none, [], none⟩], 0⟩

/-- C3 (counterexample): `calculateEarningsSummary` is *not* additive
field-by-field.  For the disjoint singleton working sets A (annual return
104% of 20000) and B (annual return 52% of 10500), the summary over the
union has `projectedAnnualReturn = 26000/30500*100 ≠ 104 + 52`, and
`cashBalance` is the account constant `5000` on each side, not `10000`. -/
theorem earningsSummary_not_fully_additive :
    (calculateEarningsSummary (some ⟨5000, 40000⟩)
        ([additivityTickerA] ++ [additivityTickerB])).projectedAnnualReturn ≠
      (calculateEarningsSummary (some ⟨5000, 40000⟩) [additivityTickerA]).projectedAnnualReturn +
        (calculateEarningsSummary (some ⟨5000, 40000⟩) [additivityTickerB]).projectedAnnualReturn ∧
    (calculateEarningsSummary (some ⟨5000, 40000⟩)
        ([additivityTickerA] ++ [additivityTickerB])).cashBalance ≠
      (calculateEarningsSummary (some ⟨5000, 40000⟩) [additivityTickerA]).cashBalance +
        (calculateEarningsSummary (some ⟨5000, 40000⟩) [additivityTickerB]).cashBalance := by
  constructor <;>
    norm_num [calculateEarningsSummary, stepTicker, stepOptionData, additivityTickerA,
      additivityTickerB, chosenCall, chosenPut, truthy]

instance (currentExpiry : ℤ) : IsTotal OptionQuote (rolloverLE currentExpiry) :=
  ⟨fun a b => le_total (expiryDistance currentExpiry a) (expiryDistance currentExpiry b)⟩

instance (currentExpiry : ℤ) : IsTrans OptionQuote (rolloverLE currentExpiry) :=
  ⟨fun _ _ _ hab hbc => le_trans hab hbc⟩

/-- `orderedInsert` with the rollover comparator never moves the inserted
element past one at the same distance, so the sub-list at any fixed
distance `c` gains the new element at the front or not at all. -/
theorem filter_orderedInsert_expiryDistance (cur c : ℤ) (a : OptionQuote) :
    ∀ l : List OptionQuote,
      (l.orderedInsert (rolloverLE cur) a).filter
          (fun x => decide (expiryDistance cur x = c)) =
        if expiryDistance cur a = c then
          a :: l.filter (fun x => decide (expiryDistance cur x = c))
        else l.filter (fun x => decide (expiryDistance cur x = c))
  | [] => by
      simp [List.orderedInsert, List.filter]
      split <;> simp_all
  | b :: l => by
      by_cases hab : rolloverLE cur a b
      · rw [List.orderedInsert_of_le (rolloverLE cur) l hab]
        by_cases ha : expiryDistance cur a = c <;> simp [List.filter_cons, ha]
      · have hb : expiryDistance cur b ≤ expiryDistance cur a :=
          (IsTotal.total (r := rolloverLE cur) a b).resolve_left hab
        have hlt : expiryDistance cur b < expiryDistance cur a := lt_of_le_of_ne hb
          (fun e => hab (le_of_eq e.symm))
        have step : (b :: l).orderedInsert (rolloverLE cur) a =
            b :: l.orderedInsert (rolloverLE cur) a := by
          simp [List.orderedInsert, hab]
        rw [step]
        by_cases ha : expiryDistance cur a = c
        · have hbc : ¬ expiryDistance cur b = c := fun e => absurd (e.trans ha.symm) (ne_of_lt hlt)
          simp [List.filter_cons, ha, hbc, filter_orderedInsert_expiryDistance cur c a l]
        · by_cases hbc : expiryDistance cur b = c <;>
            simp [List.filter_cons, ha, hbc, filter_orderedInsert_expiryDistance cur c a l]

/-- Stability of the rollover sort: the candidates at any fixed distance
from the target date keep their original relative order. -/
theorem filter_insertionSort_expiryDistance (cur c : ℤ) :
    ∀ l : List OptionQuote,
      (l.insertionSort (rolloverLE cur)).filter
          (fun x => decide (expiryDistance cur x = c)) =
        l.filter (fun x => decide (expiryDistance cur x = c))
  | [] => rfl
  | a :: l => by
      show ((l.insertionSort (rolloverLE cur)).orderedInsert (rolloverLE cur) a).filter _ = _
      rw [filter_orderedInsert_expiryDistance cur c a,
        filter_insertionSort_expiryDistance cur c l]
      by_cases ha : expiryDistance cur a = c <;> simp [List.filter_cons, ha]

/-- Candidate expiring 2024-06-28 (day 19902 since the epoch). -/
def rollQuote0628 : OptionQuote := ⟨95, some 1, some (9/10), none, 19902⟩

/-- Candidate expiring 2024-07-05 (day 19909). -/
def rollQuote0705 : OptionQuote := ⟨95, some 1, some 1, none, 19909⟩

/-- Candidate expiring 2024-06-20 (day 19894). -/
def rollQuote0620 : OptionQuote := ⟨95, some 1, some (4/5), none, 19894⟩

/-- C6 (confirmed): the rollover-candidate pipeline keeps only expirations
strictly after the current one, sorts ascending by distance from one week
later with a stable tie-break (the sub-list at any fixed distance is
unchanged), truncates to 3, and on the 2024-06-21 scenario (day 19895)
with candidates [06-28, 07-05, 06-20] returns [06-28, 07-05]. -/
theorem rolloverSuggestions_spec (cur : ℤ) (opts : List OptionQuote) :
    (∀ o ∈ selectRolloverSuggestions cur opts, o ∈ opts ∧ cur < o.expiration) ∧
    (selectRolloverSuggestions cur opts).length ≤ 3 ∧
    (selectRolloverSuggestions cur opts).Sorted (rolloverLE cur) ∧
    (∀ c : ℤ,
      ((opts.filter (fun o => decide (cur < o.expiration))).insertionSort
            (rolloverLE cur)).filter (fun x => decide (expiryDistance cur x = c)) =
        (opts.filter (fun o => decide (cur < o.expiration))).filter
          (fun x => decide (expiryDistance cur x = c))) ∧
    selectRolloverSuggestions 19895 [rollQuote0628, rollQuote0705, rollQuote0620] =
      [rollQuote0628, rollQuote0705] := by
  refine ⟨?_, ?_, ?_, fun c => filter_insertionSort_expiryDistance cur c _, rfl⟩
  · intro o ho
    have h1 : o ∈ (opts.filter (fun o => decide (cur < o.expiration))).insertionSort
        (rolloverLE cur) := (List.take_sublist 3 _).subset ho
    rw [List.mem_insertionSort] at h1
    have h2 := List.mem_filter.mp h1
    exact ⟨h2.1, of_decide_eq_true h2.2⟩
  · calc (selectRolloverSuggestions cur opts).length
        = min 3 (((opts.filter (fun o => decide (cur < o.expiration))).insertionSort
            (rolloverLE cur)).length) := List.length_take 3 _
      _ ≤ 3 := min_le_left _ _
  · exact List.Pairwise.sublist (List.take_sublist 3 _)
      (List.sorted_insertionSort (rolloverLE cur) _)

/-- Witness for `rolloverSuggestions_spec` at the 2024-06-21 scenario. -/
theorem rolloverSuggestions_spec_witness :
    rollQuote0628 ∈ [rollQuote0628, rollQuote0705, rollQuote0620] ∧
      (19895 : ℤ) < rollQuote0628.expiration := by
  have hs := rolloverSuggestions_spec 19895 [rollQuote0628, rollQuote0705, rollQuote0620]
  refine hs.1 rollQuote0628 ?_
  rw [hs.2.2.2.2]
  exact List.mem_cons_self _ _

/-- `updateFirst` preserves the length of the list. -/
theorem length_updateFirst (p : α → Bool) (f : α → α) :
    ∀ l : List α, (updateFirst p f l).length = l.length
  | [] => rfl
  | x :: xs => by
      by_cases h : p x <;> simp [updateFirst, h, length_updateFirst p f xs]

/-- `updateFirst` only rewrites an element satisfying the predicate: a
position holding an element that does not satisfy it is left unchanged. -/
theorem getD_updateFirst_of_pred_false (p : α → Bool) (f : α → α) (d : α) :
    ∀ (l : List α) (i : ℕ), p (l.getD i d) = false →
      (updateFirst p f l).getD i d = l.getD i d
  | [], _, _ => rfl
  | x :: xs, 0, h => by
      simp only [List.getD_cons_zero] at h
      simp [updateFirst, h]
  | x :: xs, i + 1, h => by
      simp only [List.getD_cons_succ] at h
      by_cases hx : p x
      · simp only [updateFirst, hx, if_true, List.getD_cons_succ]
      · simp only [updateFirst, hx, if_false, Bool.false_eq_true, List.getD_cons_succ]
        exact getD_updateFirst_of_pred_false p f d xs i h

/-- The merge loop of `checkOrdersStatus` leaves every order whose id is
targeted by no update untouched (positionally). -/
theorem getD_applyUpdates_of_id_not_targeted :
    ∀ (updates : List OrderUpdate) (orders : List Order) (i : ℕ),
      (∀ u ∈ updates, u.id ≠ (orders.getD i dummyOrder).id) →
      (applyUpdates orders updates).getD i dummyOrder = orders.getD i dummyOrder
  | [], _, _, _ => rfl
  | u :: us, orders, i, h => by
      have h1 : ((orders.getD i dummyOrder).id == u.id) = false := by
        rw [beq_eq_false_iff_ne]
        exact fun e => h u (List.mem_cons_self u us) e.symm
      have h2 : (updateFirst (fun o => o.id == u.id) (fun o => mergeOrder o u)
          orders).getD i dummyOrder = orders.getD i dummyOrder :=
        getD_updateFirst_of_pred_false _ _ _ orders i h1
      have h3 : applyUpdates orders (u :: us) =
          applyUpdates (updateFirst (fun o => o.id == u.id) (fun o => mergeOrder o u)
            orders) us := rfl
      rw [h3, getD_applyUpdates_of_id_not_targeted us _ i (by
        intro u' hu'
        rw [h2]
        exact h u' (List.mem_cons_of_mem u hu')), h2]

/-- An order that has been executed (terminal status). -/
def executedOrder : Order := ⟨7, .executed, true, some "123", some "Filled", none, none, none⟩

/-- C7 (counterexample): `executeOrderById` does not respect terminal
statuses: invoked on an order whose status is already `executed`, a
successful execute response unconditionally rewrites the order's status to
`processing`. -/
theorem execute_overwrites_terminal_status :
    ((executeOrderSucceed ⟨[executedOrder], false⟩ 7 ⟨some "124", none⟩).orders.map
        Order.status) = [OrderStatus.processing] ∧
    OrderStatus.processing ≠ OrderStatus.executed := by
  constructor
  · rfl
  · intro h
    exact OrderStatus.noConfusion h

/-- C7 (amended): the poll-status merge of `checkOrdersStatus` never
changes the status (terminal or not) of an order whose id is carried by no
entry of `updated_orders`; `executeOrderById` and `cancelOrderById`, by
contrast, overwrite the first matching order's status regardless of its
previous value, so the no-exit-from-terminal invariant rests on the UI
disabling those actions for non-pending orders. -/
theorem checkOrdersStatus_preserves_untargeted (s : TrackerState)
    (resp : Option CheckResult) (i : ℕ)
    (h : ∀ r, resp = some r → ∀ u ∈ r.updated_orders,
      u.id ≠ (s.orders.getD i dummyOrder).id) :
    ((checkOrdersStatus s resp).orders.getD i dummyOrder).status =
      (s.orders.getD i dummyOrder).status := by
  have horders : (checkOrdersStatus s resp).orders = s.orders ∨
      ∃ r, resp = some r ∧
        (checkOrdersStatus s resp).orders = applyUpdates s.orders r.updated_orders := by
    unfold checkOrdersStatus
    by_cases hact : hasActiveOrders s.orders
    · cases resp with
      | none => exact Or.inl (by simp [hact])
      | some r =>
          by_cases hr : r.success ∧ r.updated_orders ≠ []
          · by_cases hact2 : hasActiveOrders (applyUpdates s.orders r.updated_orders)
            · exact Or.inr ⟨r, rfl, by simp [hact, hr, hact2]⟩
            · exact Or.inr ⟨r, rfl, by simp [hact, hr, hact2]⟩
          · exact Or.inl (by simp [hact, hr])
    · exact Or.inl (by simp [hact])
  rcases horders with h1 | ⟨r, hresp, h1⟩
  · rw [h1]
  · rw [h1, getD_applyUpdates_of_id_not_targeted r.updated_orders s.orders i (h r hresp)]

/-- Witness for `checkOrdersStatus_preserves_untargeted`: an update for
order 99 leaves the terminal order 7 untouched. -/
theorem checkOrdersStatus_preserves_untargeted_witness :
    ((checkOrdersStatus ⟨[executedOrder], true⟩
        (some ⟨true, [⟨99, some OrderStatus.canceled, none, none⟩]⟩)).orders.getD 0
          dummyOrder).status = OrderStatus.executed := by
  have h := checkOrdersStatus_preserves_untargeted ⟨[executedOrder], true⟩
    (some ⟨true, [⟨99, some OrderStatus.canceled, none, none⟩]⟩) 0 ?_
  · rw [h]
    rfl
  · intro r hr u hu
    cases hr
    simp only [List.mem_singleton] at hu
    subst hu
    intro e
    exact absurd e (by decide)

/-- C8 (confirmed): a successful execute or cancel intent turns the
polling timer on (`startAutoRefresh` is invoked on both paths), and after
any poll tick of `checkOrdersStatus` in whose resulting state no tracked
order is `processing` or `canceling` the timer is off — the stop check
fires both when a poll finds no active orders (without calling the
backend) and after a merge leaves none, so polling stops within one poll
interval of the last active order reaching a terminal status. -/
theorem polling_start_stop_spec :
    (∀ (s : TrackerState) (orderId : ℕ) (r : ExecResult),
      (executeOrderSucceed s orderId r).timerOn = true) ∧
    (∀ (s : TrackerState) (orderId : ℕ) (r : CancelResult),
      (cancelOrderSucceed s orderId r).timerOn = true) ∧
    (∀ (s : TrackerState) (resp : Option CheckResult),
      hasActiveOrders (checkOrdersStatus s resp).orders = false →
      (checkOrdersStatus s resp).timerOn = false) := by
  refine ⟨fun _ _ _ => rfl, fun _ _ _ => rfl, fun s resp h => ?_⟩
  unfold checkOrdersStatus at h ⊢
  by_cases hact : hasActiveOrders s.orders
  · rw [if_pos hact] at h ⊢
    cases resp with
    | none => exact absurd h (by simp [hact])
    | some r =>
        dsimp only at h ⊢
        by_cases hr : r.success = true ∧ r.updated_orders ≠ []
        · rw [if_pos hr] at h ⊢
          by_cases hact2 : hasActiveOrders (applyUpdates s.orders r.updated_orders)
          · rw [if_pos hact2] at h ⊢
            exact absurd h (by simp [hact2])
          · rw [if_neg hact2]
        · rw [if_neg hr] at h ⊢
          exact absurd h (by simp [hact])
  · rw [if_neg hact]

/-- Witness for `polling_start_stop_spec`: a tick over a tracker whose only
order is already terminal turns the timer off. -/
theorem polling_start_stop_spec_witness :
    (checkOrdersStatus ⟨[executedOrder], true⟩ none).timerOn = false :=
  polling_start_stop_spec.2.2 ⟨[executedOrder], true⟩ none (by decide)

/-- Normalisation replacing an ask of exactly `0` by a missing ask. -/
def clearZeroAsk (q : OptionQuote) : OptionQuote :=
  if q.ask = some 0 then { q with ask := none } else q

/-- `clearZeroAsk` applied to every quote of a per-ticker payload. -/
def clearZeroAskOptionData (od : OptionData) : OptionData :=
  { od with
      calls := od.calls.map clearZeroAsk
      call := od.call.map clearZeroAsk
      puts := od.puts.map clearZeroAsk
      put := od.put.map clearZeroAsk }

/-- `clearZeroAsk` applied to every quote of a working set. -/
def clearZeroAskTicker (td : TickerData) : TickerData :=
  { td with data := td.data.map (fun ods => ods.map clearZeroAskOptionData) }

/-- A zero ask is exactly as truthy as a missing one. -/
theorem truthy_clearZeroAsk (q : OptionQuote) :
    truthy (clearZeroAsk q).ask = truthy q.ask := by
  by_cases hq : q.ask = some 0 <;> simp [clearZeroAsk, hq, truthy]

/-- An ask read with `|| 0` is unchanged by the normalisation. -/
theorem clearZeroAsk_ask_getD (q : OptionQuote) :
    (clearZeroAsk q).ask.getD 0 = q.ask.getD 0 := by
  by_cases hq : q.ask = some 0 <;> simp [clearZeroAsk, hq]

/-- The strike is unchanged by the normalisation. -/
theorem clearZeroAsk_strike (q : OptionQuote) :
    (clearZeroAsk q).strike = q.strike := by
  by_cases hq : q.ask = some 0 <;> simp [clearZeroAsk, hq]

/-- Quote selection commutes with the normalisation. -/
theorem chosenCall_clearZeroAsk (od : OptionData) :
    chosenCall (clearZeroAskOptionData od) = (chosenCall od).map clearZeroAsk := by
  cases h : od.calls <;> simp [chosenCall, clearZeroAskOptionData, h]

/-- Put-side analogue of `chosenCall_clearZeroAsk`. -/
theorem chosenPut_clearZeroAsk (od : OptionData) :
    chosenPut (clearZeroAskOptionData od) = (chosenPut od).map clearZeroAsk := by
  cases h : od.puts <;> simp [chosenPut, clearZeroAskOptionData, h]

/-- The earnings-summary step is blind to the difference between a zero
ask and a missing ask. -/
theorem stepOptionData_clearZeroAsk (q : ℚ) (acc : EarnAcc) (od : OptionData) :
    stepOptionData q acc (clearZeroAskOptionData od) = stepOptionData q acc od := by
  unfold stepOptionData
  have hpos : (clearZeroAskOptionData od).position = od.position := rfl
  have hsp : (clearZeroAskOptionData od).stock_price = od.stock_price := rfl
  rw [hpos, hsp, chosenCall_clearZeroAsk, chosenPut_clearZeroAsk]
  by_cases h : od.position < 100
  · simp [h]
  · rw [if_neg h, if_neg h]
    cases hc : chosenCall od <;> cases hp : chosenPut od <;>
      simp only [Option.map_some', Option.map_none'] <;>
      simp only [truthy_clearZeroAsk, clearZeroAsk_ask_getD, clearZeroAsk_strike]

/-- `clearZeroAsk` invariance through the inner fold. -/
theorem foldl_stepOptionData_clearZeroAsk (q : ℚ) :
    ∀ (ods : List OptionData) (acc : EarnAcc),
      (ods.map clearZeroAskOptionData).foldl (stepOptionData q) acc =
        ods.foldl (stepOptionData q) acc
  | [], _ => rfl
  | od :: ods, acc => by
      simp only [List.map_cons, List.foldl_cons, stepOptionData_clearZeroAsk]
      exact foldl_stepOptionData_clearZeroAsk q ods _

/-- `clearZeroAsk` invariance through `stepTicker`. -/
theorem stepTicker_clearZeroAsk (acc : EarnAcc) (td : TickerData) :
    stepTicker acc (clearZeroAskTicker td) = stepTicker acc td := by
  cases h : td.data with
  | none => simp [stepTicker, clearZeroAskTicker, h]
  | some ods =>
      simp [stepTicker, clearZeroAskTicker, h, foldl_stepOptionData_clearZeroAsk]

/-- `clearZeroAsk` invariance through the outer fold. -/
theorem foldl_stepTicker_clearZeroAsk :
    ∀ (tds : List TickerData) (acc : EarnAcc),
      (tds.map clearZeroAskTicker).foldl stepTicker acc = tds.foldl stepTicker acc
  | [], _ => rfl
  | td :: tds, acc => by
      simp only [List.map_cons, List.foldl_cons, stepTicker_clearZeroAsk]
      exact foldl_stepTicker_clearZeroAsk tds _

/-- C10 (confirmed): at the aggregation interface a quote whose ask is
exactly `0` behaves identically to one with no ask at all: normalising
every zero ask to a missing ask leaves the whole earnings summary
unchanged (so such a quote contributes nothing to
`totalWeeklyCallPremium`, `totalWeeklyPutPremium` or
`totalPutExerciseCost`), and the per-row premium cells render the `'N/A'`
fallback for a zero ask exactly as for a missing quote — eligibility is
truthiness of the ask, which excludes `null`, `undefined` and `0` alike. -/
theorem zero_ask_equals_missing_ask :
    (∀ (ps : Option PortfolioSummary) (tds : List TickerData),
      calculateEarningsSummary ps (tds.map clearZeroAskTicker) =
        calculateEarningsSummary ps tds) ∧
    (∀ (callsDisabled : Bool) (c : OptionQuote) (sharesOwned : ℚ), c.ask = some 0 →
      rowCallPremiumCell callsDisabled (some c) sharesOwned = none ∧
      rowCallPremiumCell callsDisabled none sharesOwned = none) ∧
    (∀ (p : OptionQuote) (putQuantity : ℚ), p.ask = some 0 →
      rowPutPremiumCell (some p) putQuantity = none ∧
      rowPutPremiumCell none putQuantity = none) := by
  refine ⟨fun ps tds => ?_, fun callsDisabled c sharesOwned hc => ?_, fun p putQuantity hp => ?_⟩
  · simp [calculateEarningsSummary, foldl_stepTicker_clearZeroAsk]
  · exact ⟨by simp [rowCallPremiumCell, hc, truthy], rfl⟩
  · exact ⟨by simp [rowPutPremiumCell, hp, truthy], rfl⟩

/-- Witness for `zero_ask_equals_missing_ask`: a zero-ask call and put
quote render the fallback. -/
theorem zero_ask_equals_missing_ask_witness :
    rowCallPremiumCell false (some ⟨105, some 0, none, none, 19902⟩) 250 = none ∧
    rowPutPremiumCell (some ⟨95, some 0, none, none, 19902⟩) 2 = none :=
  ⟨(zero_ask_equals_missing_ask.2.1 false ⟨105, some 0, none, none, 19902⟩ 250 rfl).1,
    (zero_ask_equals_missing_ask.2.2 ⟨95, some 0, none, none, 19902⟩ 2 rfl).1⟩
